import Mathlib

/-!
Shallow embedding of the channel/capability model of the open-fixture-library
repository, centred on `src/lib/model/CoarseChannel.js`.

Conventions:
* JavaScript numbers used as resolutions are modelled as `ℚ` where the code
  can receive non-integers (the `ensureProperResolution` check), and as `Nat`
  where only non-negative integers occur (raw DMX values, byte resolutions).
* Fallible operations (`throw new RangeError`, entity parse failures) are
  modelled with `Except ModelError`.
* `Capability.js`, `Entity.js` and `scale-dmx-values.js` are not part of the
  shown sources; the definitions embedding them are marked
  "Modelled from the spec:" and follow the specification text.
-/

/-- Wheel reference as exposed by a capability: only its kind (`type`) is
relevant to the channel type classifier. -/
structure Wheel where
  type : String
deriving DecidableEq

/-- Modelled from the spec: the observable attributes of a constructed
`Capability` (from `src/lib/model/Capability.js`, not among the shown
sources) that `CoarseChannel.js` reads: the effect `type` tag, the wheel
references (`wheels[i]` may be undefined in JS, hence `Option`), the
shutter effect (undefined unless the capability declares one), the
`isStep` / `isInverted` flags, and the raw `dmxRange` record field
(absent for a singular `capability` record until the channel synthesizes
one). -/
structure Capability where
  dmxRange : Option (Nat × Nat) := none
  type : String := ""
  wheels : List (Option Wheel) := []
  shutterEffect : Option String := none
  isStep : Bool := false
  isInverted : Bool := false
deriving DecidableEq

/-- Predicate of the `Multi-Color` entry of `channelTypeConstraints`
(CoarseChannel.js lines 15-17): every WheelSlot capability's first wheel
exists and is of kind Color. -/
def multiColorPredicate (caps : List Capability) : Bool :=
  caps.all fun cap =>
    cap.type != "WheelSlot" ||
      (match cap.wheels.head? with
       | some (some w) => w.type == "Color"
       | _ => false)

/-- Predicate of the `Gobo` entry of `channelTypeConstraints`
(CoarseChannel.js lines 26-28): every wheel of every capability exists and
is of kind Gobo. -/
def goboPredicate (caps : List Capability) : Bool :=
  caps.all fun cap =>
    cap.wheels.all fun w =>
      match w with
      | some wheel => wheel.type == "Gobo"
      | none => false

/-- Predicate of the `Strobe` entry of `channelTypeConstraints`
(CoarseChannel.js lines 35-37): some ShutterStrobe capability has a
shutter effect that is neither Open nor Closed (an absent shutter effect
also qualifies, as in the JS `includes` check on `undefined`). -/
def strobePredicate (caps : List Capability) : Bool :=
  caps.any fun cap =>
    cap.type == "ShutterStrobe" &&
      !(match cap.shutterEffect with
        | some s => s == "Open" || s == "Closed"
        | none => false)

/-- One entry of the classifier rule table: the channel type name, the
required capability-type tags, and the optional predicate over the full
capability list (the JS predicates receive the channel and read
`channel.capabilities`; here they receive the capability list directly). -/
structure TypeConstraint where
  name : String
  required : List String
  predicate : Option (List Capability → Bool) := none

/-- Embedding of `channelTypeConstraints` (CoarseChannel.js lines 11-45), in
declaration order. JS object key order is insertion order, which
`Object.keys` preserves, so a Lean list is a faithful model. -/
def channelTypeConstraints : List TypeConstraint := [
  ⟨"Single Color", ["ColorIntensity"], none⟩,
  ⟨"Multi-Color", ["ColorPreset", "WheelSlot"], some multiColorPredicate⟩,
  ⟨"Pan", ["Pan", "PanContinuous"], none⟩,
  ⟨"Tilt", ["Tilt", "TiltContinuous"], none⟩,
  ⟨"Focus", ["Focus"], none⟩,
  ⟨"Zoom", ["Zoom"], none⟩,
  ⟨"Iris", ["Iris", "IrisEffect"], none⟩,
  ⟨"Gobo", ["WheelSlot", "WheelShake"], some goboPredicate⟩,
  ⟨"Prism", ["Prism"], none⟩,
  ⟨"Color Temperature", ["ColorTemperature"], none⟩,
  ⟨"Effect", ["Effect", "EffectParameter", "Frost", "FrostEffect", "SoundSensitivity", "WheelSlot"], none⟩,
  ⟨"Strobe", ["ShutterStrobe"], some strobePredicate⟩,
  ⟨"Shutter", ["ShutterStrobe", "BladeInsertion", "BladeRotation", "BladeSystemRotation"], none⟩,
  ⟨"Fog", ["Fog", "FogOutput", "FogType"], none⟩,
  ⟨"Speed", ["StrobeSpeed", "StrobeDuration", "PanTiltSpeed", "EffectSpeed", "EffectDuration", "BeamAngle", "BeamPosition", "PrismRotation", "Rotation", "Speed", "Time", "WheelSlotRotation", "WheelRotation", "WheelShake"], none⟩,
  ⟨"Maintenance", ["Maintenance"], none⟩,
  ⟨"Intensity", ["Intensity", "Generic"], none⟩,
  ⟨"NoFunction", ["NoFunction"], none⟩]

/-- Match condition of one rule-table entry against a capability list, as in
the body of the `find` callback of the `type` getter (CoarseChannel.js
lines 136-151): some capability's type is among the required tags, and the
predicate (when present) holds. -/
def constraintMatches (c : TypeConstraint) (caps : List Capability) : Bool :=
  (caps.any fun cap => c.required.contains cap.type) &&
    (match c.predicate with
     | some p => p caps
     | none => true)

/-- Embedding of the `type` getter (CoarseChannel.js lines 132-156): the name
of the first rule-table entry matching the capability list, or `Unknown`. -/
def channelType (caps : List Capability) : String :=
  match channelTypeConstraints.find? (fun c => constraintMatches c caps) with
  | some c => c.name
  | none => "Unknown"

/-- Value of the JSON fields `defaultValue` / `highlightValue`: either a plain
non-negative integer (raw DMX values are non-negative integers) or an entity
expression string. -/
inductive JsonValue where
  | num (n : Nat)
  | str (s : String)
deriving DecidableEq

/-- Declared `dmxValueResolution` JSON field; the schema (enforced upstream,
spec section 7d) restricts it to these three values. -/
inductive DmxResolutionField where
  | eightBit
  | sixteenBit
  | twentyFourBit
deriving DecidableEq

/-- Byte count denoted by a declared `dmxValueResolution` field, per the
`resolutionStringToResolution` map (CoarseChannel.js lines 212-216). -/
def DmxResolutionField.toRes : DmxResolutionField → Nat
  | .eightBit => 1
  | .sixteenBit => 2
  | .twentyFourBit => 3

/-- Channel record from the fixture JSON, with the fields CoarseChannel.js
reads (spec section 6). Capability records are modelled directly as
`Capability` values; their `dmxRange` field is `none` when the record omits
it. Exactly one of `capability` / `capabilities` is present in well-formed
records. -/
structure ChannelJson where
  name : Option String := none
  fineChannelAliases : Option (List String) := none
  dmxValueResolution : Option DmxResolutionField := none
  defaultValue : Option JsonValue := none
  highlightValue : Option JsonValue := none
  constant : Option Bool := none
  precedence : Option String := none
  capability : Option Capability := none
  capabilities : Option (List Capability) := none
deriving DecidableEq

namespace CoarseChannel

/-- Embedding of the `fineChannelAliases` getter (CoarseChannel.js lines
173-175): the JSON field, or the empty list when absent (`|| []`). -/
def fineChannelAliases (j : ChannelJson) : List String :=
  j.fineChannelAliases.getD []

/-- Embedding of the `maxResolution` getter (CoarseChannel.js lines 191-193):
one more than the number of fine channel aliases. -/
def maxResolution (j : ChannelJson) : Nat :=
  1 + (fineChannelAliases j).length

/-- Embedding of the `maxDmxBound` getter (CoarseChannel.js lines 245-247). -/
def maxDmxBound (j : ChannelJson) : Nat :=
  256 ^ maxResolution j - 1

/-- Embedding of the `dmxValueResolution` getter (CoarseChannel.js lines
209-226): the declared resolution, defaulting to `maxResolution`. -/
def dmxValueResolution (j : ChannelJson) : Nat :=
  match j.dmxValueResolution with
  | some r => r.toRes
  | none => maxResolution j

/-- Errors surfaced by the model: `RangeError` for invalid resolutions and
entity parse failures for malformed expression strings (spec section 7). -/
inductive ModelError where
  | rangeError (msg : String)
  | parseError (msg : String)
deriving DecidableEq

/-- Embedding of `ensureProperResolution` (CoarseChannel.js lines 200-204).
The argument is a JS number, modelled as `ℚ`; the JS test
`uncheckedResolution % 1 !== 0` holds exactly when the number has a
fractional part, i.e. when the rational's denominator is not 1. -/
def ensureProperResolution (j : ChannelJson) (uncheckedResolution : ℚ) :
    Except ModelError Unit :=
  if uncheckedResolution > (maxResolution j : ℚ) ∨ uncheckedResolution < 1 ∨
      uncheckedResolution.den ≠ 1 then
    .error (.rangeError "resolution must be a positive integer not greater than maxResolution")
  else
    .ok ()

/-- Modelled from the spec: `scaleDmxValue` from `src/lib/scale-dmx-values.js`
(not among the shown sources), per spec section 4.1: scaling up multiplies by
`256 ^ (to - from)`, scaling down divides (flooring) by `256 ^ (from - to)`.
The spec additionally requires rejecting resolutions `≤ 0`; every call site
in CoarseChannel.js passes resolutions `≥ 1`, so the model is stated on such
calls. -/
def scaleDmxValue (value fromRes toRes : Nat) : Nat :=
  if fromRes ≤ toRes then value * 256 ^ (toRes - fromRes)
  else value / 256 ^ (fromRes - toRes)

/-- Decimal digit value of a character, if any (code points 48 to 57 are the
digits 0 to 9). -/
def decimalDigit? (c : Char) : Option Nat :=
  if 48 ≤ c.toNat ∧ c.toNat ≤ 57 then some (c.toNat - 48) else none

/-- Left-to-right accumulation of a decimal digit string into a number;
`none` on any non-digit character. -/
def digitsToNatAux (acc : Nat) : List Char → Option Nat
  | [] => some acc
  | c :: cs =>
    match decimalDigit? c with
    | some d => digitsToNatAux (acc * 10 + d) cs
    | none => none

/-- Modelled from the spec: the percentage path of the entity parser
(`Entity.createFromEntityString` in `src/lib/model/Entity.js`, not among the
shown sources), per spec section 4.2: a string of the form `<number>%`
parses to its numeric magnitude; anything else fails. Default and highlight
values use integer percentages, so the grammar is modelled as one or more
decimal digits followed by a percent sign. -/
def parsePercentEntity (s : String) : Option Nat :=
  match s.data.dropLast, s.data.getLast? with
  | [], _ => none
  | digits, some percent =>
    if percent = '%' then digitsToNatAux 0 digits else none
  | _, none => none

/-- Resolution of the raw `defaultValue` record field into an integer raw
value, per `getDefaultValueWithResolution` (CoarseChannel.js lines 271-276):
an absent field becomes 0 (`|| 0`, which also turns an empty string into 0),
an integer is used as-is, and a string is parsed as a percentage of the
maximum raw value at `dmxValueResolution`, floored. `none` models an entity
parse failure. -/
def resolveRawDefault (j : ChannelJson) : Option Nat :=
  match j.defaultValue with
  | none => some 0
  | some (.num n) => some n
  | some (.str s) =>
    if s = "" then some 0
    else (parsePercentEntity s).map
      fun p => p * (256 ^ dmxValueResolution j - 1) / 100

/-- Embedding of `getDefaultValueWithResolution` (CoarseChannel.js lines
267-285): check the resolution, resolve the raw default value, scale it from
`dmxValueResolution` to the requested resolution. The per-resolution cache
loop stores `scaleDmxValue raw d i` for each `i` in `[1, maxResolution]` and
returns the entry at the requested resolution, so the returned value is the
direct scaling. -/
def getDefaultValueWithResolution (j : ChannelJson) (desiredResolution : ℚ) :
    Except ModelError Nat :=
  match ensureProperResolution j desiredResolution with
  | .error e => .error e
  | .ok () =>
    match resolveRawDefault j with
    | none => .error (.parseError "invalid entity string")
    | some raw =>
      .ok (scaleDmxValue raw (dmxValueResolution j) desiredResolution.num.toNat)

/-- Embedding of the `hasDefaultValue` getter (CoarseChannel.js lines
252-254). -/
def hasDefaultValue (j : ChannelJson) : Bool :=
  j.defaultValue.isSome

/-- Embedding of the `defaultValue` getter (CoarseChannel.js lines 259-261):
the default value at the finest resolution. -/
def defaultValue (j : ChannelJson) : Except ModelError Nat :=
  getDefaultValueWithResolution j (maxResolution j : ℚ)

/-- Embedding of the `hasHighlightValue` getter (CoarseChannel.js lines
290-292). -/
def hasHighlightValue (j : ChannelJson) : Bool :=
  j.highlightValue.isSome

/-- Resolution of the raw `highlightValue` record field, per
`getHighlightValueWithResolution` (CoarseChannel.js lines 309-321): an
integer is used as-is, a string is parsed as a percentage of the maximum raw
value at `dmxValueResolution`, and an absent field becomes that maximum raw
value. -/
def resolveRawHighlight (j : ChannelJson) : Option Nat :=
  match j.highlightValue with
  | none => some (256 ^ dmxValueResolution j - 1)
  | some (.num n) => some n
  | some (.str s) =>
    (parsePercentEntity s).map
      fun p => p * (256 ^ dmxValueResolution j - 1) / 100

/-- Embedding of `getHighlightValueWithResolution` (CoarseChannel.js lines
305-330), structured like `getDefaultValueWithResolution`. -/
def getHighlightValueWithResolution (j : ChannelJson) (desiredResolution : ℚ) :
    Except ModelError Nat :=
  match ensureProperResolution j desiredResolution with
  | .error e => .error e
  | .ok () =>
    match resolveRawHighlight j with
    | none => .error (.parseError "invalid entity string")
    | some raw =>
      .ok (scaleDmxValue raw (dmxValueResolution j) desiredResolution.num.toNat)

end CoarseChannel

/-- Embedding of the `capabilities` getter (CoarseChannel.js lines 416-433):
a singular `capability` record is wrapped in a one-element list after
`Object.assign` fills an absent `dmxRange` with
`[0, 256 ^ dmxValueResolution - 1]` (a declared `dmxRange` wins over the
default); otherwise the `capabilities` list is used. Well-formed records
have one of the two fields; when both are absent the JS code would fault on
`undefined`, modelled as the empty list. -/
def capabilitiesOf (j : ChannelJson) : List Capability :=
  match j.capability with
  | some c =>
    [{ c with dmxRange := some (c.dmxRange.getD (0, 256 ^ CoarseChannel.dmxValueResolution j - 1)) }]
  | none => j.capabilities.getD []

namespace CoarseChannel

/-- Embedding of the `isConstant` getter (CoarseChannel.js lines 347-349). -/
def isConstant (j : ChannelJson) : Bool :=
  j.constant.getD false

/-- Embedding of the `isInverted` getter (CoarseChannel.js lines 335-342)
over the channel's capability list: the non-step ("proportional")
capabilities are non-empty and all of them report inverted. -/
def isInverted (caps : List Capability) : Bool :=
  let proportionalCaps := caps.filter fun cap => !cap.isStep
  decide (proportionalCaps.length > 0) && proportionalCaps.all fun cap => cap.isInverted

/-- Adjacent-pair crossfade check of the `canCrossfade` getter
(CoarseChannel.js lines 360-362): `every((cap, index, arr) => index + 1 ===
arr.length || cap.canCrossfadeTo(arr[index + 1]))`. `cft` stands for
`Capability.prototype.canCrossfadeTo` (`src/lib/model/Capability.js`, not
among the shown sources), kept abstract as a parameter. -/
def pairwiseCrossfade (cft : Capability → Capability → Bool) :
    List Capability → Bool
  | [] => true
  | [_] => true
  | a :: b :: rest => cft a b && pairwiseCrossfade cft (b :: rest)

/-- Embedding of the `canCrossfade` getter (CoarseChannel.js lines 354-367)
over the channel's capability list, its constant flag, and the abstract
crossfade compatibility relation `cft` (see `pairwiseCrossfade`). -/
def canCrossfade (isConstantFlag : Bool) (cft : Capability → Capability → Bool)
    (caps : List Capability) : Bool :=
  if caps.length = 1 then
    !isConstantFlag && !(channelType caps == "NoFunction")
  else
    pairwiseCrossfade cft caps && caps.any fun cap => !cap.isStep

/-- Embedding of the `color` getter (CoarseChannel.js lines 161-168), with
the capability's colour kept abstract as its `type` sentinel is all the
cache model needs: the first ColorIntensity capability, if any. -/
def colorCapability (caps : List Capability) : Option Capability :=
  caps.find? fun cap => cap.type == "ColorIntensity"

end CoarseChannel

/-- Lazily-populated derived-value cache of a CoarseChannel (`this._cache`).
Each slot is `none` while unpopulated. Slots are listed for the derived
properties the model embeds; the remaining JS cache slots behave
identically. -/
structure ChannelCache where
  type : Option String := none
  capabilities : Option (List Capability) := none
  isInverted : Option Bool := none
  canCrossfade : Option Bool := none
  defaultValuePerResolution : Option (List (Nat × Nat)) := none
  highlightValuePerResolution : Option (List (Nat × Nat)) := none

/-- Fresh cache, as assigned by `this._cache = {}`. -/
def ChannelCache.empty : ChannelCache := {}

/-- Mutable state of a CoarseChannel instance: the identity key, the current
JSON definition, the owning fixture (held by reference; only its identity
matters here) and the derived-value cache. -/
structure CoarseChannelState where
  key : String
  jsonObject : ChannelJson
  fixture : String
  cache : ChannelCache

/-- Embedding of the constructor (CoarseChannel.js lines 92-96): stores the
key and fixture and runs the `jsonObject` setter, which installs the
definition with an empty cache. -/
def mkCoarseChannel (key : String) (j : ChannelJson) (fixture : String) :
    CoarseChannelState :=
  ⟨key, j, fixture, ChannelCache.empty⟩

/-- Embedding of the `jsonObject` setter (CoarseChannel.js lines 108-111):
replaces the definition and resets the cache; key and fixture are
untouched. -/
def setJsonObject (ch : CoarseChannelState) (j : ChannelJson) :
    CoarseChannelState :=
  { ch with jsonObject := j, cache := ChannelCache.empty }

/-- Cached `type` getter on channel state: returns the cached value when the
slot is populated, otherwise computes it from the current definition and
stores it. -/
def typeGetter (ch : CoarseChannelState) : String × CoarseChannelState :=
  match ch.cache.type with
  | some t => (t, ch)
  | none =>
    let t := channelType (capabilitiesOf ch.jsonObject)
    (t, { ch with cache := { ch.cache with type := some t } })

/-- Cached `capabilities` getter on channel state. -/
def capabilitiesGetter (ch : CoarseChannelState) :
    List Capability × CoarseChannelState :=
  match ch.cache.capabilities with
  | some caps => (caps, ch)
  | none =>
    let caps := capabilitiesOf ch.jsonObject
    (caps, { ch with cache := { ch.cache with capabilities := some caps } })

/-- Cached `isInverted` getter on channel state. -/
def isInvertedGetter (ch : CoarseChannelState) : Bool × CoarseChannelState :=
  match ch.cache.isInverted with
  | some b => (b, ch)
  | none =>
    let b := CoarseChannel.isInverted (capabilitiesOf ch.jsonObject)
    (b, { ch with cache := { ch.cache with isInverted := some b } })

/-- Cached `canCrossfade` getter on channel state, parameterized by the
abstract crossfade relation (see `pairwiseCrossfade`). -/
def canCrossfadeGetter (cft : Capability → Capability → Bool)
    (ch : CoarseChannelState) : Bool × CoarseChannelState :=
  match ch.cache.canCrossfade with
  | some b => (b, ch)
  | none =>
    let b := CoarseChannel.canCrossfade (CoarseChannel.isConstant ch.jsonObject)
      cft (capabilitiesOf ch.jsonObject)
    (b, { ch with cache := { ch.cache with canCrossfade := some b } })

/-- Cached `getDefaultValueWithResolution` on channel state: on a cache miss
the values for all resolutions `1 .. maxResolution` are computed and stored,
then the requested entry is returned (CoarseChannel.js lines 278-284). -/
def getDefaultValueGetter (ch : CoarseChannelState) (desiredResolution : ℚ) :
    Except CoarseChannel.ModelError Nat × CoarseChannelState :=
  match CoarseChannel.ensureProperResolution ch.jsonObject desiredResolution with
  | .error e => (.error e, ch)
  | .ok () =>
    match ch.cache.defaultValuePerResolution with
    | some table =>
      (match table.lookup desiredResolution.num.toNat with
       | some v => .ok v
       | none => .error (.rangeError "missing cache entry"), ch)
    | none =>
      match CoarseChannel.resolveRawDefault ch.jsonObject with
      | none => (.error (.parseError "invalid entity string"), ch)
      | some raw =>
        let table := (List.range (CoarseChannel.maxResolution ch.jsonObject)).map
          fun i => (i + 1,
            CoarseChannel.scaleDmxValue raw (CoarseChannel.dmxValueResolution ch.jsonObject) (i + 1))
        ((match table.lookup desiredResolution.num.toNat with
          | some v => .ok v
          | none => .error (.rangeError "missing cache entry")),
         { ch with cache := { ch.cache with defaultValuePerResolution := some table } })

/-- Sample capability with type NoFunction. -/
def noFunctionCap : Capability := { type := "NoFunction" }

/-- Sample step capability flagged inverted. -/
def stepInvertedCap : Capability := { isStep := true, isInverted := true }

/-- Sample WheelSlot capability whose single wheel is of kind Gobo. -/
def wheelSlotGoboCap : Capability :=
  { type := "WheelSlot", wheels := [some ⟨"Gobo"⟩] }

/-- Sample ShutterStrobe capability with a Strobe shutter effect. -/
def strobeCap : Capability :=
  { type := "ShutterStrobe", shutterEffect := some "Strobe" }

/-- Sample 16-bit channel whose default value is the entity string 50%. -/
def chPercent50 : ChannelJson :=
  { fineChannelAliases := some ["Dimmer fine"],
    dmxValueResolution := some .sixteenBit,
    defaultValue := some (.str "50%"),
    capability := some { type := "Intensity" } }

/-- Sample channel with a singular `capability` record, one fine channel
alias and a declared 8-bit value resolution. -/
def chSingular8bitFine : ChannelJson :=
  { fineChannelAliases := some ["fine"],
    dmxValueResolution := some .eightBit,
    capability := some { type := "Intensity" } }

/-- Sample channel record without a `defaultValue` field. -/
def chNoDefault : ChannelJson :=
  { capability := some { type := "Intensity" } }

/-- Characterization of `List.find?`: either no element satisfies the
predicate, or the result is the element at the first satisfying index. -/
theorem find?_first_characterization {α : Type} (p : α → Bool) (l : List α) :
    (l.find? p = none ∧ ∀ a ∈ l, p a = false) ∨
      ∃ i, ∃ hi : i < l.length, p (l.get ⟨i, hi⟩) = true ∧
        (∀ k, (hk : k < l.length) → k < i → p (l.get ⟨k, hk⟩) = false) ∧
        l.find? p = some (l.get ⟨i, hi⟩) := by
  induction l with
  | nil => exact Or.inl ⟨rfl, by simp⟩
  | cons a t ih =>
    cases ha : p a with
    | true =>
      refine Or.inr ⟨0, by simp, by simpa using ha, ?_, ?_⟩
      · intro k hk hlt
        exact absurd hlt (Nat.not_lt_zero k)
      · simp [List.find?, ha]
    | false =>
      rcases ih with ⟨hn, hall⟩ | ⟨i, hi, hp, hprev, hfind⟩
      · refine Or.inl ⟨by simp [List.find?, ha, hn], ?_⟩
        intro x hx
        rcases List.mem_cons.mp hx with rfl | hx
        · exact ha
        · exact hall x hx
      · refine Or.inr ⟨i + 1, by simpa using hi, by simpa using hp, ?_, ?_⟩
        · intro k hk hlt
          cases k with
          | zero => simpa using ha
          | succ k' =>
            have := hprev k' (by simpa using hk) (Nat.lt_of_succ_lt_succ hlt)
            simpa using this
        · simpa [List.find?, ha] using hfind

/-- C1: the `type` getter returns the name of the first entry, in the
declaration order of the rule table (Single Color, Multi-Color, Pan, Tilt,
Focus, Zoom, Iris, Gobo, Prism, Color Temperature, Effect, Strobe, Shutter,
Fog, Speed, Maintenance, Intensity, NoFunction), whose required tag set
contains some capability's type and whose predicate (when present) holds
over the full capability list; if no entry matches, the type is Unknown. -/
theorem channelType_first_match :
    channelTypeConstraints.map TypeConstraint.name =
      ["Single Color", "Multi-Color", "Pan", "Tilt", "Focus", "Zoom", "Iris",
       "Gobo", "Prism", "Color Temperature", "Effect", "Strobe", "Shutter",
       "Fog", "Speed", "Maintenance", "Intensity", "NoFunction"] ∧
    ∀ caps : List Capability,
      (channelType caps = "Unknown" ∧
        ∀ c ∈ channelTypeConstraints, constraintMatches c caps = false) ∨
      ∃ i, ∃ hi : i < channelTypeConstraints.length,
        constraintMatches (channelTypeConstraints.get ⟨i, hi⟩) caps = true ∧
        (∀ k, (hk : k < channelTypeConstraints.length) → k < i →
          constraintMatches (channelTypeConstraints.get ⟨k, hk⟩) caps = false) ∧
        channelType caps = (channelTypeConstraints.get ⟨i, hi⟩).name := by
  refine ⟨rfl, fun caps => ?_⟩
  rcases find?_first_characterization (fun c => constraintMatches c caps)
      channelTypeConstraints with ⟨hn, hall⟩ | ⟨i, hi, hp, hprev, hfind⟩
  · exact Or.inl ⟨by simp [channelType, hn], fun c hc => hall c hc⟩
  · exact Or.inr ⟨i, hi, hp, hprev, by simp [channelType, hfind]⟩

/-- Instance of `channelType_first_match` at a concrete one-capability
channel. -/
theorem channelType_first_match_witness :
    (channelType [strobeCap] = "Unknown" ∧
      ∀ c ∈ channelTypeConstraints, constraintMatches c [strobeCap] = false) ∨
    ∃ i, ∃ hi : i < channelTypeConstraints.length,
      constraintMatches (channelTypeConstraints.get ⟨i, hi⟩) [strobeCap] = true ∧
      (∀ k, (hk : k < channelTypeConstraints.length) → k < i →
        constraintMatches (channelTypeConstraints.get ⟨k, hk⟩) [strobeCap] = false) ∧
      channelType [strobeCap] = (channelTypeConstraints.get ⟨i, hi⟩).name :=
  channelType_first_match.2 [strobeCap]

/-- C3: `maxResolution` is one more than the number of fine channel aliases
(zero when the JSON field is absent) and `maxDmxBound` is
`256 ^ maxResolution - 1`. -/
theorem maxResolution_maxDmxBound_spec (j : ChannelJson) :
    CoarseChannel.maxResolution j =
      1 + (match j.fineChannelAliases with
           | some aliases => aliases.length
           | none => 0) ∧
    CoarseChannel.maxDmxBound j = 256 ^ CoarseChannel.maxResolution j - 1 := by
  cases h : j.fineChannelAliases <;>
    simp [CoarseChannel.maxResolution, CoarseChannel.maxDmxBound,
      CoarseChannel.fineChannelAliases, h]

/-- C7: a channel with a single WheelSlot capability whose only wheel is a
Gobo wheel classifies as Gobo, not Effect: the Gobo predicate holds, the
Multi-Color predicate fails, and Gobo precedes Effect in the table. -/
theorem wheelSlotGobo_classified_gobo :
    channelType [wheelSlotGoboCap] = "Gobo" ∧
    channelType [wheelSlotGoboCap] ≠ "Effect" ∧
    goboPredicate [wheelSlotGoboCap] = true ∧
    multiColorPredicate [wheelSlotGoboCap] = false ∧
    constraintMatches ⟨"Effect", ["Effect", "EffectParameter", "Frost", "FrostEffect", "SoundSensitivity", "WheelSlot"], none⟩ [wheelSlotGoboCap] = true := by
  refine ⟨by decide, by decide, by decide, by decide, by decide⟩

/-- Index characterization of the adjacent-pair crossfade check: it holds
exactly when every adjacent pair of the list is related by `cft`. -/
theorem pairwiseCrossfade_eq_true_iff (cft : Capability → Capability → Bool)
    (l : List Capability) :
    CoarseChannel.pairwiseCrossfade cft l = true ↔
      ∀ i, (hi : i + 1 < l.length) → cft l[i] l[i + 1] = true := by
  induction l with
  | nil => simp [CoarseChannel.pairwiseCrossfade]
  | cons a t ih =>
    cases t with
    | nil =>
      simp only [CoarseChannel.pairwiseCrossfade, true_iff]
      intro i hi
      simp at hi
    | cons b rest =>
      rw [show CoarseChannel.pairwiseCrossfade cft (a :: b :: rest) =
            (cft a b && CoarseChannel.pairwiseCrossfade cft (b :: rest)) from rfl,
        Bool.and_eq_true, ih]
      constructor
      · rintro ⟨hab, hrest⟩ i hi
        cases i with
        | zero => simpa using hab
        | succ k =>
          have hk : k + 1 < (b :: rest).length := by
            simpa [Nat.succ_lt_succ_iff] using hi
          have := hrest k hk
          simpa using this
      · intro h
        refine ⟨by simpa using h 0 (by simp), ?_⟩
        intro k hk
        have hk' : (k + 1) + 1 < (a :: b :: rest).length := by
          simpa [Nat.succ_lt_succ_iff] using hk
        have := h (k + 1) hk'
        simpa using this

/-- C5: a single-capability channel can crossfade exactly when it is not
constant and its classified type is not NoFunction; a channel with two or
more capabilities can crossfade exactly when every adjacent capability pair
is crossfade-compatible and some capability is non-step. -/
theorem canCrossfade_spec (isConstantFlag : Bool)
    (cft : Capability → Capability → Bool) (caps : List Capability) :
    (caps.length = 1 →
      (CoarseChannel.canCrossfade isConstantFlag cft caps = true ↔
        isConstantFlag = false ∧ channelType caps ≠ "NoFunction")) ∧
    (2 ≤ caps.length →
      (CoarseChannel.canCrossfade isConstantFlag cft caps = true ↔
        (∀ i, (hi : i + 1 < caps.length) → cft caps[i] caps[i + 1] = true) ∧
        ∃ cap ∈ caps, cap.isStep = false)) := by
  constructor
  · intro h1
    rw [CoarseChannel.canCrossfade, if_pos h1, Bool.and_eq_true,
      Bool.not_eq_true', Bool.not_eq_true']
    constructor
    · rintro ⟨hc, ht⟩
      exact ⟨hc, by simpa using ht⟩
    · rintro ⟨hc, ht⟩
      exact ⟨hc, by simpa using ht⟩
  · intro h2
    rw [CoarseChannel.canCrossfade, if_neg (by omega), Bool.and_eq_true,
      pairwiseCrossfade_eq_true_iff, List.any_eq_true]
    constructor
    · rintro ⟨hpw, cap, hmem, hstep⟩
      exact ⟨hpw, cap, hmem, by simpa using hstep⟩
    · rintro ⟨hpw, cap, hmem, hstep⟩
      exact ⟨hpw, cap, hmem, by simpa using hstep⟩

/-- Instance of `canCrossfade_spec`: a channel whose only capability has
type NoFunction cannot crossfade. -/
theorem canCrossfade_spec_witness :
    CoarseChannel.canCrossfade false (fun _ _ => true) [noFunctionCap] = false := by
  have h := (canCrossfade_spec false (fun _ _ => true) [noFunctionCap]).1 (by decide)
  cases hb : CoarseChannel.canCrossfade false (fun _ _ => true) [noFunctionCap] with
  | false => rfl
  | true =>
    have := (h.mp hb).2
    exact absurd (by decide : channelType [noFunctionCap] = "NoFunction") this

/-- C6: `isInverted` holds exactly when some capability is non-step and all
non-step capabilities report inverted; a channel with no capabilities, or
with step capabilities only, is never inverted. -/
theorem isInverted_spec (caps : List Capability) :
    (CoarseChannel.isInverted caps = true ↔
      (∃ cap ∈ caps, cap.isStep = false) ∧
      ∀ cap ∈ caps, cap.isStep = false → cap.isInverted = true) ∧
    (caps = [] → CoarseChannel.isInverted caps = false) ∧
    ((∀ cap ∈ caps, cap.isStep = true) → CoarseChannel.isInverted caps = false) := by
  have hmain : CoarseChannel.isInverted caps = true ↔
      (∃ cap ∈ caps, cap.isStep = false) ∧
      ∀ cap ∈ caps, cap.isStep = false → cap.isInverted = true := by
    rw [CoarseChannel.isInverted]
    simp only [Bool.and_eq_true, decide_eq_true_eq, List.length_pos,
      List.all_eq_true, List.mem_filter, Bool.not_eq_true',
      ne_eq, List.eq_nil_iff_forall_not_mem, not_forall, not_not]
    tauto
  refine ⟨hmain, ?_, ?_⟩
  · rintro rfl
    rfl
  · intro hall
    cases hb : CoarseChannel.isInverted caps with
    | false => rfl
    | true =>
      rcases (hmain.mp hb).1 with ⟨cap, hmem, hstep⟩
      rw [hall cap hmem] at hstep
      exact absurd hstep (by simp)

/-- Instance of `isInverted_spec`: a channel whose only capability is a step
capability flagged inverted is not inverted. -/
theorem isInverted_spec_witness :
    CoarseChannel.isInverted [stepInvertedCap] = false :=
  (isInverted_spec [stepInvertedCap]).2.2 (by decide)

/-- Evaluation of `getDefaultValueWithResolution` at a valid integer
resolution, given the resolved raw default value. -/
theorem getDefaultValueWithResolution_natCast (j : ChannelJson) (n : Nat)
    (h1 : 1 ≤ n) (h2 : n ≤ CoarseChannel.maxResolution j) (raw : Nat)
    (hraw : CoarseChannel.resolveRawDefault j = some raw) :
    CoarseChannel.getDefaultValueWithResolution j (n : ℚ) =
      .ok (CoarseChannel.scaleDmxValue raw (CoarseChannel.dmxValueResolution j) n) := by
  have hcond : ¬((n : ℚ) > (CoarseChannel.maxResolution j : ℚ) ∨ (n : ℚ) < 1 ∨
      ((n : ℚ)).den ≠ 1) := by
    push_neg
    exact ⟨by exact_mod_cast h2, by exact_mod_cast h1, by simp⟩
  have hens : CoarseChannel.ensureProperResolution j (n : ℚ) = .ok () := by
    unfold CoarseChannel.ensureProperResolution
    rw [if_neg hcond]
  unfold CoarseChannel.getDefaultValueWithResolution
  rw [hens, hraw]
  simp

/-- C4: with a well-formed record, the default and highlight value getters
fail with a RangeError exactly when the requested resolution is not an
integer in the interval from 1 to `maxResolution`; on an integer resolution
in that interval both return a value. -/
theorem resolutionErrors_spec (j : ChannelJson) (r : ℚ)
    (hd : (CoarseChannel.resolveRawDefault j).isSome = true)
    (hh : (CoarseChannel.resolveRawHighlight j).isSome = true) :
    ((∃ e, CoarseChannel.getDefaultValueWithResolution j r =
        .error (.rangeError e)) ↔
      ¬(r.isInt = true ∧ 1 ≤ r ∧ r ≤ (CoarseChannel.maxResolution j : ℚ))) ∧
    ((∃ e, CoarseChannel.getHighlightValueWithResolution j r =
        .error (.rangeError e)) ↔
      ¬(r.isInt = true ∧ 1 ≤ r ∧ r ≤ (CoarseChannel.maxResolution j : ℚ))) ∧
    ((r.isInt = true ∧ 1 ≤ r ∧ r ≤ (CoarseChannel.maxResolution j : ℚ)) →
      (∃ v, CoarseChannel.getDefaultValueWithResolution j r = .ok v) ∧
      ∃ v, CoarseChannel.getHighlightValueWithResolution j r = .ok v) := by
  have hint : r.isInt = true ↔ r.den = 1 := by
    simp [Rat.isInt]
  have hiff : (r > (CoarseChannel.maxResolution j : ℚ) ∨ r < 1 ∨ r.den ≠ 1) ↔
      ¬(r.isInt = true ∧ 1 ≤ r ∧ r ≤ (CoarseChannel.maxResolution j : ℚ)) := by
    constructor
    · rintro (h | h | h) ⟨h1, h2, h3⟩
      · exact absurd h3 (not_le.mpr h)
      · exact absurd h2 (not_le.mpr h)
      · exact h (hint.mp h1)
    · intro h
      by_contra hc
      push_neg at hc
      exact h ⟨hint.mpr hc.2.2, hc.2.1, hc.1⟩
  by_cases hcond : r > (CoarseChannel.maxResolution j : ℚ) ∨ r < 1 ∨ r.den ≠ 1
  · have hens : CoarseChannel.ensureProperResolution j r =
        .error (.rangeError "resolution must be a positive integer not greater than maxResolution") := by
      unfold CoarseChannel.ensureProperResolution
      rw [if_pos hcond]
    have hdef : CoarseChannel.getDefaultValueWithResolution j r =
        .error (.rangeError "resolution must be a positive integer not greater than maxResolution") := by
      unfold CoarseChannel.getDefaultValueWithResolution
      rw [hens]
    have hhl : CoarseChannel.getHighlightValueWithResolution j r =
        .error (.rangeError "resolution must be a positive integer not greater than maxResolution") := by
      unfold CoarseChannel.getHighlightValueWithResolution
      rw [hens]
    refine ⟨⟨fun _ => hiff.mp hcond, fun _ => ⟨_, hdef⟩⟩,
      ⟨fun _ => hiff.mp hcond, fun _ => ⟨_, hhl⟩⟩, fun hv => ?_⟩
    exact absurd hv (hiff.mp hcond)
  · have hvalid : r.isInt = true ∧ 1 ≤ r ∧ r ≤ (CoarseChannel.maxResolution j : ℚ) := by
      by_contra hv
      exact hcond (hiff.mpr hv)
    have hens : CoarseChannel.ensureProperResolution j r = .ok () := by
      unfold CoarseChannel.ensureProperResolution
      rw [if_neg hcond]
    obtain ⟨rawd, hrawd⟩ := Option.isSome_iff_exists.mp hd
    obtain ⟨rawh, hrawh⟩ := Option.isSome_iff_exists.mp hh
    have hdef : CoarseChannel.getDefaultValueWithResolution j r =
        .ok (CoarseChannel.scaleDmxValue rawd (CoarseChannel.dmxValueResolution j) r.num.toNat) := by
      unfold CoarseChannel.getDefaultValueWithResolution
      rw [hens, hrawd]
    have hhl : CoarseChannel.getHighlightValueWithResolution j r =
        .ok (CoarseChannel.scaleDmxValue rawh (CoarseChannel.dmxValueResolution j) r.num.toNat) := by
      unfold CoarseChannel.getHighlightValueWithResolution
      rw [hens, hrawh]
    refine ⟨⟨?_, fun hn => absurd hvalid hn⟩, ⟨?_, fun hn => absurd hvalid hn⟩,
      fun _ => ⟨⟨_, hdef⟩, ⟨_, hhl⟩⟩⟩
    · rintro ⟨e, he⟩
      rw [hdef] at he
      exact absurd he (by simp)
    · rintro ⟨e, he⟩
      rw [hhl] at he
      exact absurd he (by simp)

/-- Instance of `resolutionErrors_spec` at a concrete channel and the
non-integer resolution five halves. -/
theorem resolutionErrors_spec_witness :
    ((∃ e, CoarseChannel.getDefaultValueWithResolution chPercent50 ((5 : ℚ) / 2) =
        .error (.rangeError e)) ↔
      ¬(((5 : ℚ) / 2).isInt = true ∧ 1 ≤ (5 : ℚ) / 2 ∧
        (5 : ℚ) / 2 ≤ (CoarseChannel.maxResolution chPercent50 : ℚ))) ∧
    ((∃ e, CoarseChannel.getHighlightValueWithResolution chPercent50 ((5 : ℚ) / 2) =
        .error (.rangeError e)) ↔
      ¬(((5 : ℚ) / 2).isInt = true ∧ 1 ≤ (5 : ℚ) / 2 ∧
        (5 : ℚ) / 2 ≤ (CoarseChannel.maxResolution chPercent50 : ℚ))) ∧
    ((((5 : ℚ) / 2).isInt = true ∧ 1 ≤ (5 : ℚ) / 2 ∧
        (5 : ℚ) / 2 ≤ (CoarseChannel.maxResolution chPercent50 : ℚ)) →
      (∃ v, CoarseChannel.getDefaultValueWithResolution chPercent50 ((5 : ℚ) / 2) = .ok v) ∧
      ∃ v, CoarseChannel.getHighlightValueWithResolution chPercent50 ((5 : ℚ) / 2) = .ok v) :=
  resolutionErrors_spec chPercent50 ((5 : ℚ) / 2) (by decide) (by decide)

/-- C2: a percentage default value resolves to the floored fraction of the
maximum raw value at `dmxValueResolution`, and the getter scales that raw
value from `dmxValueResolution` up (times a power of 256) or down (flooring
by a power of 256) to the requested resolution. -/
theorem getDefaultValue_percent_spec (j : ChannelJson) (s : String) (p : Nat)
    (hdv : j.defaultValue = some (.str s)) (hs : s ≠ "")
    (hp : CoarseChannel.parsePercentEntity s = some p)
    (n : Nat) (h1 : 1 ≤ n) (h2 : n ≤ CoarseChannel.maxResolution j) :
    CoarseChannel.resolveRawDefault j =
      some (p * (256 ^ CoarseChannel.dmxValueResolution j - 1) / 100) ∧
    CoarseChannel.getDefaultValueWithResolution j (n : ℚ) =
      .ok (if CoarseChannel.dmxValueResolution j ≤ n then
            p * (256 ^ CoarseChannel.dmxValueResolution j - 1) / 100 *
              256 ^ (n - CoarseChannel.dmxValueResolution j)
          else
            p * (256 ^ CoarseChannel.dmxValueResolution j - 1) / 100 /
              256 ^ (CoarseChannel.dmxValueResolution j - n)) := by
  have hraw : CoarseChannel.resolveRawDefault j =
      some (p * (256 ^ CoarseChannel.dmxValueResolution j - 1) / 100) := by
    unfold CoarseChannel.resolveRawDefault
    rw [hdv]
    simp [hs, hp]
  refine ⟨hraw, ?_⟩
  rw [getDefaultValueWithResolution_natCast j n h1 h2 _ hraw]
  rfl

/-- Instance of `getDefaultValue_percent_spec`: the entity string 50% on a
channel with a declared 16-bit value resolution resolves to
`floor(0.5 * 65535) = 32767`, and at 16-bit output resolution the getter
returns 32767 unchanged. -/
theorem getDefaultValue_percent_spec_witness :
    CoarseChannel.resolveRawDefault chPercent50 = some 32767 ∧
    CoarseChannel.getDefaultValueWithResolution chPercent50 ((2 : Nat) : ℚ) =
      .ok 32767 := by
  have h := getDefaultValue_percent_spec chPercent50 "50%" 50 rfl (by decide)
    (by decide) 2 (by decide) (by decide)
  exact ⟨h.1.trans (by decide), h.2.trans (by rfl)⟩

/-- C10: a record without a `defaultValue` field has `hasDefaultValue`
false, a default of 0 at every valid resolution, and a `defaultValue` getter
result of 0. -/
theorem defaultValue_absent_spec (j : ChannelJson) (h : j.defaultValue = none)
    (n : Nat) (h1 : 1 ≤ n) (h2 : n ≤ CoarseChannel.maxResolution j) :
    CoarseChannel.hasDefaultValue j = false ∧
    CoarseChannel.getDefaultValueWithResolution j (n : ℚ) = .ok 0 ∧
    CoarseChannel.defaultValue j = .ok 0 := by
  have hraw : CoarseChannel.resolveRawDefault j = some 0 := by
    unfold CoarseChannel.resolveRawDefault
    rw [h]
  have hscale : ∀ m,
      CoarseChannel.scaleDmxValue 0 (CoarseChannel.dmxValueResolution j) m = 0 := by
    intro m
    unfold CoarseChannel.scaleDmxValue
    split <;> simp
  refine ⟨by simp [CoarseChannel.hasDefaultValue, h], ?_, ?_⟩
  · rw [getDefaultValueWithResolution_natCast j n h1 h2 0 hraw, hscale]
  · have hm1 : 1 ≤ CoarseChannel.maxResolution j := by
      unfold CoarseChannel.maxResolution
      omega
    unfold CoarseChannel.defaultValue
    rw [getDefaultValueWithResolution_natCast j (CoarseChannel.maxResolution j)
      hm1 le_rfl 0 hraw, hscale]

/-- Instance of `defaultValue_absent_spec` at a concrete record without a
`defaultValue` field. -/
theorem defaultValue_absent_spec_witness :
    CoarseChannel.hasDefaultValue chNoDefault = false ∧
    CoarseChannel.getDefaultValueWithResolution chNoDefault ((1 : Nat) : ℚ) = .ok 0 ∧
    CoarseChannel.defaultValue chNoDefault = .ok 0 :=
  defaultValue_absent_spec chNoDefault rfl 1 (by decide) (by decide)

/-- Counterexample to C8 as stated: a singular-capability channel with one
fine channel alias and a declared 8-bit value resolution synthesizes the
range `[0, 255]` (the full range at `dmxValueResolution`), while
`maxDmxBound` is `256 ^ maxResolution - 1 = 65535`. -/
theorem capabilities_fullRange_counterexample :
    chSingular8bitFine.capability = some { type := "Intensity" } ∧
    chSingular8bitFine.capability.map Capability.dmxRange = some none ∧
    capabilitiesOf chSingular8bitFine =
      [{ type := "Intensity", dmxRange := some (0, 255) }] ∧
    CoarseChannel.maxDmxBound chSingular8bitFine = 65535 ∧
    (capabilitiesOf chSingular8bitFine).map Capability.dmxRange ≠
      [some (0, CoarseChannel.maxDmxBound chSingular8bitFine)] := by
  refine ⟨rfl, rfl, by decide, by decide, by decide⟩

/-- C8 (amended): a singular `capability` record becomes exactly one
capability; a missing `dmxRange` is filled with the full range
`[0, 256 ^ dmxValueResolution - 1]` at the channel's declared value
resolution, which equals `[0, maxDmxBound]` whenever no `dmxValueResolution`
is declared. -/
theorem capabilities_singular_spec (j : ChannelJson) (c : Capability)
    (h : j.capability = some c) :
    capabilitiesOf j = [{ c with dmxRange := some (c.dmxRange.getD (0, 256 ^ CoarseChannel.dmxValueResolution j - 1)) }] ∧
    (capabilitiesOf j).length = 1 ∧
    (j.dmxValueResolution = none → c.dmxRange = none →
      capabilitiesOf j =
        [{ c with dmxRange := some (0, CoarseChannel.maxDmxBound j) }]) := by
  have h1 : capabilitiesOf j = [{ c with dmxRange := some (c.dmxRange.getD (0, 256 ^ CoarseChannel.dmxValueResolution j - 1)) }] := by
    unfold capabilitiesOf
    rw [h]
  refine ⟨h1, by rw [h1]; rfl, ?_⟩
  intro hres hrange
  have hd : CoarseChannel.dmxValueResolution j = CoarseChannel.maxResolution j := by
    unfold CoarseChannel.dmxValueResolution
    rw [hres]
  rw [h1, hrange, hd]
  rfl

/-- Instance of `capabilities_singular_spec` at a record with no declared
`dmxValueResolution` and no capability `dmxRange`. -/
theorem capabilities_singular_spec_witness :
    (capabilitiesOf chNoDefault).length = 1 ∧
    capabilitiesOf chNoDefault = [{ type := "Intensity", dmxRange := some (0, CoarseChannel.maxDmxBound chNoDefault) }] := by
  have h := capabilities_singular_spec chNoDefault { type := "Intensity" } rfl
  exact ⟨h.2.1, h.2.2 rfl rfl⟩

/-- C9: the `jsonObject` setter produces exactly the state of a freshly
constructed channel with the same key, the new definition and the same
fixture; the key and fixture references are unchanged and the cache is
empty, so every derived observation (here: type, capabilities, isInverted,
canCrossfade, default values at any resolution, each a function of the
state) coincides with the freshly constructed channel's. -/
theorem setJsonObject_spec (ch : CoarseChannelState) (j : ChannelJson)
    (cft : Capability → Capability → Bool) (r : ℚ) :
    setJsonObject ch j = mkCoarseChannel ch.key j ch.fixture ∧
    (setJsonObject ch j).key = ch.key ∧
    (setJsonObject ch j).fixture = ch.fixture ∧
    (setJsonObject ch j).jsonObject = j ∧
    (setJsonObject ch j).cache = ChannelCache.empty ∧
    (typeGetter (setJsonObject ch j)).1 =
      (typeGetter (mkCoarseChannel ch.key j ch.fixture)).1 ∧
    (capabilitiesGetter (setJsonObject ch j)).1 =
      (capabilitiesGetter (mkCoarseChannel ch.key j ch.fixture)).1 ∧
    (isInvertedGetter (setJsonObject ch j)).1 =
      (isInvertedGetter (mkCoarseChannel ch.key j ch.fixture)).1 ∧
    (canCrossfadeGetter cft (setJsonObject ch j)).1 =
      (canCrossfadeGetter cft (mkCoarseChannel ch.key j ch.fixture)).1 ∧
    (getDefaultValueGetter (setJsonObject ch j) r).1 =
      (getDefaultValueGetter (mkCoarseChannel ch.key j ch.fixture) r).1 := by
  have h : setJsonObject ch j = mkCoarseChannel ch.key j ch.fixture := rfl
  exact ⟨h, rfl, rfl, rfl, rfl, by rw [h], by rw [h], by rw [h], by rw [h],
    by rw [h]⟩
